import Mathlib

/-!
Verification of the thread-parallel tally-and-reduction engine of
`src/USER-OMP/thr_omp.cpp` (LAMMPS OpenMP threading support).

Doubles are modelled as exact rationals, per-atom arrays as total functions
from atom indices, and the six-component virial tensors as functions
`Fin 6 → ℚ`.  Each C++ member function that the claims touch is embedded as
a pure state-passing Lean function over the `ThrData` accumulator.
-/

set_option maxHeartbeats 1000000

namespace ThrOMP

/-- Six-component symmetric stress tensor (xx, yy, zz, xy, xz, yz). -/
abbrev V6 : Type := Fin 6 → ℚ

/-- Three-component vector. -/
abbrev V3 : Type := Fin 3 → ℚ

/-- Per-thread accumulator, mirroring the fields of `ThrData` that
`thr_omp.cpp` reads and writes: per-category scalar energies, per-category
6-component virials, and this thread's slices of the shared per-atom
energy and per-atom stress arenas (modelled as total functions). -/
structure ThrData where
  eng_vdwl : ℚ
  eng_coul : ℚ
  eng_bond : ℚ
  eng_angle : ℚ
  eng_dihed : ℚ
  eng_imprp : ℚ
  eng_kspce : ℚ
  virial_pair : V6
  virial_bond : V6
  virial_angle : V6
  virial_dihed : V6
  virial_imprp : V6
  virial_kspce : V6
  _eatom : ℕ → ℚ
  _vatom : ℕ → V6

/-- The energy/virial request flags of a `Pair` style object that the tally
functions consult (`eflag_global`, `eflag_atom`, ...). -/
structure Pair where
  eflag_global : Bool
  eflag_atom : Bool
  eflag_either : Bool
  vflag_global : Bool
  vflag_atom : Bool
  vflag_either : Bool

/-- The energy/virial request flags of a `Dihedral` style object. -/
structure Dihedral where
  eflag_global : Bool
  eflag_atom : Bool
  eflag_either : Bool
  vflag_global : Bool
  vflag_atom : Bool
  vflag_either : Bool

/-- `MathConst::THIRD`. -/
def THIRD : ℚ := 1 / 3

/-- Helper `v_tally(vout, vin)`: componentwise `vout[i] += vin[i]`. -/
def v_tally (vout vin : V6) : V6 := fun c => vout c + vin c

/-- Helper `v_tally(vout, scale, vin)`: componentwise
`vout[i] += scale * vin[i]`. -/
def v_tally_scaled (vout : V6) (scale : ℚ) (vin : V6) : V6 :=
  fun c => vout c + scale * vin c

/-- `ThrOMP::e_tally_thr`: tally `evdwl` and `ecoul` into the calling
thread's global and per-atom energy accumulators.  Faithful embedding of
lines 209-235 of `thr_omp.cpp`. -/
def e_tally_thr (pair : Pair) (i j nlocal : ℕ) (newton_pair : Bool)
    (evdwl ecoul : ℚ) (thr : ThrData) : ThrData :=
  let t1 :=
    if pair.eflag_global then
      if newton_pair then
        { thr with eng_vdwl := thr.eng_vdwl + evdwl
                   eng_coul := thr.eng_coul + ecoul }
      else
        let ta :=
          if i < nlocal then
            { thr with eng_vdwl := thr.eng_vdwl + (1/2) * evdwl
                       eng_coul := thr.eng_coul + (1/2) * ecoul }
          else thr
        if j < nlocal then
          { ta with eng_vdwl := ta.eng_vdwl + (1/2) * evdwl
                    eng_coul := ta.eng_coul + (1/2) * ecoul }
        else ta
    else thr
  if pair.eflag_atom then
    let epairhalf := (1/2) * (evdwl + ecoul)
    let t2 :=
      if newton_pair || decide (i < nlocal) then
        { t1 with _eatom := Function.update t1._eatom i (t1._eatom i + epairhalf) }
      else t1
    if newton_pair || decide (j < nlocal) then
      { t2 with _eatom := Function.update t2._eatom j (t2._eatom j + epairhalf) }
    else t2
  else t1

/-- `ThrOMP::v_tally_thr`: tally the 6-component virial `v` into the calling
thread's global and per-atom virial accumulators.  Faithful embedding of
lines 261-285 of `thr_omp.cpp`. -/
def v_tally_thr (pair : Pair) (i j nlocal : ℕ) (newton_pair : Bool)
    (v : V6) (thr : ThrData) : ThrData :=
  let t1 :=
    if pair.vflag_global then
      if newton_pair then
        { thr with virial_pair := v_tally thr.virial_pair v }
      else
        let ta :=
          if i < nlocal then
            { thr with virial_pair := v_tally_scaled thr.virial_pair (1/2) v }
          else thr
        if j < nlocal then
          { ta with virial_pair := v_tally_scaled ta.virial_pair (1/2) v }
        else ta
    else thr
  if pair.vflag_atom then
    let t2 :=
      if newton_pair || decide (i < nlocal) then
        { t1 with _vatom := Function.update t1._vatom i (v_tally_scaled (t1._vatom i) (1/2) v) }
      else t1
    if newton_pair || decide (j < nlocal) then
      { t2 with _vatom := Function.update t2._vatom j (v_tally_scaled (t2._vatom j) (1/2) v) }
    else t2
  else t1

/-- The virial decomposition built inside `ThrOMP::ev_tally3_thr` from the
caller-supplied forces and displacement vectors (`v[0..5]`, lines 371-376). -/
def v3comp (fj fk drji drki : V3) : V6 :=
  fun c =>
    if c = 0 then drji 0 * fj 0 + drki 0 * fk 0
    else if c = 1 then drji 1 * fj 1 + drki 1 * fk 1
    else if c = 2 then drji 2 * fj 2 + drki 2 * fk 2
    else if c = 3 then drji 0 * fj 1 + drki 0 * fk 1
    else if c = 4 then drji 0 * fj 2 + drki 0 * fk 2
    else drji 1 * fj 2 + drki 1 * fk 2

/-- `ThrOMP::ev_tally3_thr`: three-body tally (lines 349-386). -/
def ev_tally3_thr (pair : Pair) (i j k : ℕ) (evdwl ecoul : ℚ)
    (fj fk drji drki : V3) (thr : ThrData) : ThrData :=
  let t1 :=
    if pair.eflag_either then
      let ta :=
        if pair.eflag_global then
          { thr with eng_vdwl := thr.eng_vdwl + evdwl
                     eng_coul := thr.eng_coul + ecoul }
        else thr
      if pair.eflag_atom then
        let epairthird := THIRD * (evdwl + ecoul)
        let e1 := Function.update ta._eatom i (ta._eatom i + epairthird)
        let e2 := Function.update e1 j (e1 j + epairthird)
        let e3 := Function.update e2 k (e2 k + epairthird)
        { ta with _eatom := e3 }
      else ta
    else thr
  if pair.vflag_either then
    let v := v3comp fj fk drji drki
    let t2 :=
      if pair.vflag_global then
        { t1 with virial_pair := v_tally t1.virial_pair v }
      else t1
    if pair.vflag_atom then
      let w1 := Function.update t2._vatom i (v_tally_scaled (t2._vatom i) THIRD v)
      let w2 := Function.update w1 j (v_tally_scaled (w1 j) THIRD v)
      let w3 := Function.update w2 k (v_tally_scaled (w2 k) THIRD v)
      { t2 with _vatom := w3 }
    else t2
  else t1

/-- The virial decomposition built inside `ThrOMP::ev_tally4_thr`, already
carrying the factor 0.25 (`v[0..5]`, lines 414-419). -/
def v4comp (fi fj fk drim drjm drkm : V3) : V6 :=
  fun c =>
    if c = 0 then (1/4) * (drim 0 * fi 0 + drjm 0 * fj 0 + drkm 0 * fk 0)
    else if c = 1 then (1/4) * (drim 1 * fi 1 + drjm 1 * fj 1 + drkm 1 * fk 1)
    else if c = 2 then (1/4) * (drim 2 * fi 2 + drjm 2 * fj 2 + drkm 2 * fk 2)
    else if c = 3 then (1/4) * (drim 0 * fi 1 + drjm 0 * fj 1 + drkm 0 * fk 1)
    else if c = 4 then (1/4) * (drim 0 * fi 2 + drjm 0 * fj 2 + drkm 0 * fk 2)
    else (1/4) * (drim 1 * fi 2 + drjm 1 * fj 2 + drkm 1 * fk 2)

/-- `ThrOMP::ev_tally4_thr`: four-body tally (lines 393-426).  Note: the
source updates only per-atom virials (`vflag_atom`); it never touches the
thread's global virial. -/
def ev_tally4_thr (pair : Pair) (i j k m : ℕ) (evdwl : ℚ)
    (fi fj fk drim drjm drkm : V3) (thr : ThrData) : ThrData :=
  let t1 :=
    if pair.eflag_either then
      let ta :=
        if pair.eflag_global then
          { thr with eng_vdwl := thr.eng_vdwl + evdwl }
        else thr
      if pair.eflag_atom then
        let epairfourth := (1/4) * evdwl
        let e1 := Function.update ta._eatom i (ta._eatom i + epairfourth)
        let e2 := Function.update e1 j (e1 j + epairfourth)
        let e3 := Function.update e2 k (e2 k + epairfourth)
        let e4 := Function.update e3 m (e3 m + epairfourth)
        { ta with _eatom := e4 }
      else ta
    else thr
  if pair.vflag_atom then
    let v := v4comp fi fj fk drim drjm drkm
    let w1 := Function.update t1._vatom i (v_tally (t1._vatom i) v)
    let w2 := Function.update w1 j (v_tally (w1 j) v)
    let w3 := Function.update w2 k (v_tally (w2 k) v)
    let w4 := Function.update w3 m (v_tally (w3 m) v)
    { t1 with _vatom := w4 }
  else t1

/-- `ThrOMP::ev_tally_list_thr`: tally `ecoul` and the caller-supplied
virial `v` into each of the atoms of `list` (lines 434-467).  The C++
function receives the length `n` and a pointer; here the list itself is
passed and `n` is its length. -/
def ev_tally_list_thr (pair : Pair) (list : List ℕ) (ecoul : ℚ)
    (v : V6) (thr : ThrData) : ThrData :=
  let n : ℚ := (list.length : ℚ)
  let t1 :=
    if pair.eflag_either then
      let ta :=
        if pair.eflag_global then
          { thr with eng_coul := thr.eng_coul + ecoul }
        else thr
      if pair.eflag_atom then
        let epairatom := ecoul / n
        { ta with _eatom :=
            list.foldl (fun ea a => Function.update ea a (ea a + epairatom)) ta._eatom }
      else ta
    else thr
  if pair.vflag_either then
    let t2 :=
      if pair.vflag_global then
        { t1 with virial_pair := v_tally t1.virial_pair v }
      else t1
    if pair.vflag_atom then
      let s := 1 / n
      let vtmp : V6 := fun c => s * v c
      { t2 with _vatom :=
          list.foldl (fun va a => Function.update va a (v_tally (va a) vtmp)) t2._vatom }
    else t2
  else t1

/-- Number of the four dihedral atoms that pass the ownership test
(`cnt` in lines 492-496 and 533-537), as a rational. -/
def dihedOwnCount (i1 i2 i3 i4 nlocal : ℕ) : ℚ :=
  (if i1 < nlocal then 1 else 0) + (if i2 < nlocal then 1 else 0)
    + (if i3 < nlocal then 1 else 0) + (if i4 < nlocal then 1 else 0)

/-- The virial decomposition built inside the dihedral `ev_tally_thr`
(`v[0..5]`, lines 522-527): `vb1*f1 + vb2*f3 + (vb3+vb2)*f4`. -/
def vdihed (f1 f3 f4 vb1 vb2 vb3 : V3) : V6 :=
  fun c =>
    if c = 0 then vb1 0 * f1 0 + vb2 0 * f3 0 + (vb3 0 + vb2 0) * f4 0
    else if c = 1 then vb1 1 * f1 1 + vb2 1 * f3 1 + (vb3 1 + vb2 1) * f4 1
    else if c = 2 then vb1 2 * f1 2 + vb2 2 * f3 2 + (vb3 2 + vb2 2) * f4 2
    else if c = 3 then vb1 0 * f1 1 + vb2 0 * f3 1 + (vb3 0 + vb2 0) * f4 1
    else if c = 4 then vb1 0 * f1 2 + vb2 0 * f3 2 + (vb3 0 + vb2 0) * f4 2
    else vb1 1 * f1 2 + vb2 1 * f3 2 + (vb3 1 + vb2 1) * f4 2

/-- `ThrOMP::ev_tally_thr` (Dihedral overload, lines 476-567).  The
non-newton per-atom virial branch reproduces the source exactly: all four
gated additions test `i1 < nlocal` and write to atom `i1`. -/
def ev_tally_thr_dihedral (dihed : Dihedral) (i1 i2 i3 i4 nlocal : ℕ)
    (newton_bond : Bool) (edihedral : ℚ) (f1 f3 f4 vb1 vb2 vb3 : V3)
    (thr : ThrData) : ThrData :=
  let t1 :=
    if dihed.eflag_either then
      let ta :=
        if dihed.eflag_global then
          if newton_bond then
            { thr with eng_bond := thr.eng_bond + edihedral }
          else
            { thr with eng_bond := thr.eng_bond
                + dihedOwnCount i1 i2 i3 i4 nlocal * ((1/4) * edihedral) }
        else thr
      if dihed.eflag_atom then
        let edihedralquarter := (1/4) * edihedral
        if newton_bond then
          let e1 := Function.update ta._eatom i1 (ta._eatom i1 + edihedralquarter)
          let e2 := Function.update e1 i2 (e1 i2 + edihedralquarter)
          let e3 := Function.update e2 i3 (e2 i3 + edihedralquarter)
          let e4 := Function.update e3 i4 (e3 i4 + edihedralquarter)
          { ta with _eatom := e4 }
        else
          let e1 := if i1 < nlocal
            then Function.update ta._eatom i1 (ta._eatom i1 + edihedralquarter)
            else ta._eatom
          let e2 := if i2 < nlocal
            then Function.update e1 i2 (e1 i2 + edihedralquarter) else e1
          let e3 := if i3 < nlocal
            then Function.update e2 i3 (e2 i3 + edihedralquarter) else e2
          let e4 := if i4 < nlocal
            then Function.update e3 i4 (e3 i4 + edihedralquarter) else e3
          { ta with _eatom := e4 }
      else ta
    else thr
  if dihed.vflag_either then
    let v := vdihed f1 f3 f4 vb1 vb2 vb3
    let t2 :=
      if dihed.vflag_global then
        if newton_bond then
          { t1 with virial_dihed := v_tally t1.virial_dihed v }
        else
          { t1 with virial_dihed :=
              v_tally_scaled t1.virial_dihed ((1/4) * dihedOwnCount i1 i2 i3 i4 nlocal) v }
      else t1
    let vq : V6 := fun c => (1/4) * v c
    if dihed.vflag_atom then
      if newton_bond then
        let w1 := Function.update t2._vatom i1 (v_tally (t2._vatom i1) vq)
        let w2 := Function.update w1 i2 (v_tally (w1 i2) vq)
        let w3 := Function.update w2 i3 (v_tally (w2 i3) vq)
        let w4 := Function.update w3 i4 (v_tally (w3 i4) vq)
        { t2 with _vatom := w4 }
      else
        let w1 := if i1 < nlocal
          then Function.update t2._vatom i1 (v_tally (t2._vatom i1) vq)
          else t2._vatom
        let w2 := if i1 < nlocal
          then Function.update w1 i1 (v_tally (w1 i1) vq) else w1
        let w3 := if i1 < nlocal
          then Function.update w2 i1 (v_tally (w2 i1) vq) else w2
        let w4 := if i1 < nlocal
          then Function.update w3 i1 (v_tally (w3 i1) vq) else w3
        { t2 with _vatom := w4 }
    else t2
  else t1

/-- The pointer state that `ThrOMP::ev_setup_thr` manipulates: the thread id
and the two slice pointers `_eatom` / `_vatom`, modelled as offsets into a
flat address space. -/
structure SetupThr where
  tid : ℕ
  eatomPtr : ℕ
  vatomPtr : ℕ

/-- `ThrOMP::ev_setup_thr` (lines 63-74): hook up the per-thread per-atom
slices.  `eatom` and `vatom` are the base addresses of the shared arenas. -/
def ev_setup_thr (eflag vflag nall : ℕ) (eatom vatom : ℕ)
    (thr : SetupThr) : SetupThr :=
  let t1 :=
    if eflag &&& 2 ≠ 0 then { thr with eatomPtr := eatom + thr.tid * nall }
    else thr
  if vflag &&& 4 ≠ 0 then { t1 with vatomPtr := vatom + t1.tid * nall }
  else t1

/-- The interaction category tag (`thr_style`). -/
inductive ThrStyle where
  | pair
  | bond
  | angle
  | dihedral
  | improper
  | kspace
deriving DecidableEq

/-- The shared per-category totals owned by the style objects that
`reduce_thr` merges into (`pair->eng_vdwl`, `bond->energy`, ...). -/
structure Shared where
  pair_eng_vdwl : ℚ
  pair_eng_coul : ℚ
  pair_virial : V6
  bond_energy : ℚ
  bond_virial : V6
  angle_energy : ℚ
  angle_virial : V6
  dihedral_energy : ℚ
  dihedral_virial : V6
  improper_energy : ℚ
  improper_virial : V6
  kspace_energy : ℚ
  kspace_virial : V6

/-- The switch statement of `ThrOMP::reduce_thr` (lines 93-195): merge one
thread's accumulator into the shared totals of the given category.  For the
pair category the merge is gated on `evflag = eflag | vflag`, on
`eflag & 1` for the energies and on `vflag & 3` for the virial; the other
five categories merge unconditionally inside the critical section. -/
def reduce_merge (style : ThrStyle) (eflag vflag : ℕ) (thr : ThrData)
    (s : Shared) : Shared :=
  match style with
  | ThrStyle.pair =>
      if eflag ||| vflag ≠ 0 then
        let s1 :=
          if eflag &&& 1 ≠ 0 then
            { s with pair_eng_vdwl := s.pair_eng_vdwl + thr.eng_vdwl
                     pair_eng_coul := s.pair_eng_coul + thr.eng_coul }
          else s
        if vflag &&& 3 ≠ 0 then
          { s1 with pair_virial := v_tally s1.pair_virial thr.virial_pair }
        else s1
      else s
  | ThrStyle.bond =>
      { s with bond_energy := s.bond_energy + thr.eng_bond
               bond_virial := v_tally s.bond_virial thr.virial_bond }
  | ThrStyle.angle =>
      { s with angle_energy := s.angle_energy + thr.eng_angle
               angle_virial := v_tally s.angle_virial thr.virial_angle }
  | ThrStyle.dihedral =>
      { s with dihedral_energy := s.dihedral_energy + thr.eng_dihed
               dihedral_virial := v_tally s.dihedral_virial thr.virial_dihed }
  | ThrStyle.improper =>
      { s with improper_energy := s.improper_energy + thr.eng_imprp
               improper_virial := v_tally s.improper_virial thr.virial_imprp }
  | ThrStyle.kspace =>
      { s with kspace_energy := s.kspace_energy + thr.eng_kspce
               kspace_virial := v_tally s.kspace_virial thr.virial_kspce }

/-- Which shared flat array a `data_reduce_thr` call targets. -/
inductive ArrayId where
  | force
  | torque
deriving DecidableEq

/-- One call to `data_reduce_thr(ptr, nall, nthreads, ndim, tid)` made by
the tail of `reduce_thr`.  `data_reduce_thr` itself lives outside this
translation unit; the calls are recorded as events. -/
structure ReduceCall where
  array : ArrayId
  nall : ℕ
  nthreads : ℕ
  ndim : ℕ
  tid : ℕ
deriving DecidableEq

/-- Result of one thread's `reduce_thr`: updated shared totals plus the
list of cross-thread array-reduction calls it issued. -/
structure ReduceResult where
  shared : Shared
  calls : List ReduceCall

/-- `ThrOMP::reduce_thr` (lines 80-203).  `vflag_fdotr` and `fdotrCompute`
model the pair-only alternate virial path: `ThrData::virial_fdotr_compute`
is defined outside this translation unit, so it is passed in as an opaque-
to-the-theorems update of the thread accumulator.  `hasTorque` models
`lmp->atom->torque != NULL`, and `last` models `fix->last_omp_style`. -/
def reduce_thr (style last : ThrStyle) (eflag vflag : ℕ)
    (vflag_fdotr : Bool) (fdotrCompute : ThrData → ThrData) (hasTorque : Bool)
    (nlocal nghost nthreads tid : ℕ) (thr : ThrData) (s : Shared) :
    ReduceResult :=
  let nall := nlocal + nghost
  let thr1 :=
    if style = ThrStyle.pair ∧ vflag_fdotr = true then fdotrCompute thr else thr
  let s1 := reduce_merge style eflag vflag thr1 s
  let calls :=
    if style = last then
      ReduceCall.mk ArrayId.force nall nthreads 3 tid ::
        (if hasTorque then [ReduceCall.mk ArrayId.torque nall nthreads 3 tid]
         else [])
    else []
  { shared := s1, calls := calls }

/-- Sequential execution of the critical sections of `reduce_thr` for every
thread of a team, in thread order, with the fdotr path inactive. -/
def reduceAll (style last : ThrStyle) (eflag vflag : ℕ) (hasTorque : Bool)
    (nlocal nghost nthreads tid : ℕ) (thrs : List ThrData) (s : Shared) :
    Shared :=
  thrs.foldl
    (fun acc thr =>
      (reduce_thr style last eflag vflag false id hasTorque
          nlocal nghost nthreads tid thr acc).shared) s

/-- The shared scalar energy total of a category (for the pair category,
the sum of its two scalar energy totals). -/
def sharedEng (style : ThrStyle) (s : Shared) : ℚ :=
  match style with
  | ThrStyle.pair => s.pair_eng_vdwl + s.pair_eng_coul
  | ThrStyle.bond => s.bond_energy
  | ThrStyle.angle => s.angle_energy
  | ThrStyle.dihedral => s.dihedral_energy
  | ThrStyle.improper => s.improper_energy
  | ThrStyle.kspace => s.kspace_energy

/-- The shared 6-component stress total of a category. -/
def sharedVir (style : ThrStyle) (s : Shared) : V6 :=
  match style with
  | ThrStyle.pair => s.pair_virial
  | ThrStyle.bond => s.bond_virial
  | ThrStyle.angle => s.angle_virial
  | ThrStyle.dihedral => s.dihedral_virial
  | ThrStyle.improper => s.improper_virial
  | ThrStyle.kspace => s.kspace_virial

/-- A thread's local scalar energy for a category. -/
def thrEng (style : ThrStyle) (thr : ThrData) : ℚ :=
  match style with
  | ThrStyle.pair => thr.eng_vdwl + thr.eng_coul
  | ThrStyle.bond => thr.eng_bond
  | ThrStyle.angle => thr.eng_angle
  | ThrStyle.dihedral => thr.eng_dihed
  | ThrStyle.improper => thr.eng_imprp
  | ThrStyle.kspace => thr.eng_kspce

/-- A thread's local 6-component stress for a category. -/
def thrVir (style : ThrStyle) (thr : ThrData) : V6 :=
  match style with
  | ThrStyle.pair => thr.virial_pair
  | ThrStyle.bond => thr.virial_bond
  | ThrStyle.angle => thr.virial_angle
  | ThrStyle.dihedral => thr.virial_dihed
  | ThrStyle.improper => thr.virial_imprp
  | ThrStyle.kspace => thr.virial_kspce

/-! ### Concrete fixtures used by witnesses and counterexamples -/

/-- Zero 3-vector. -/
def z3 : V3 := fun _ => 0

/-- Unit 3-vector along x. -/
def e1v : V3 := fun c => if c = 0 then 1 else 0

/-- An all-zero thread accumulator. -/
def thr0 : ThrData :=
  { eng_vdwl := 0, eng_coul := 0, eng_bond := 0, eng_angle := 0
    eng_dihed := 0, eng_imprp := 0, eng_kspce := 0
    virial_pair := fun _ => 0, virial_bond := fun _ => 0
    virial_angle := fun _ => 0, virial_dihed := fun _ => 0
    virial_imprp := fun _ => 0, virial_kspce := fun _ => 0
    _eatom := fun _ => 0, _vatom := fun _ _ => 0 }

/-- A thread accumulator with one unit of pair van-der-Waals energy. -/
def thrOne : ThrData := { thr0 with eng_vdwl := 1 }

/-- All-zero shared totals. -/
def shared0 : Shared :=
  { pair_eng_vdwl := 0, pair_eng_coul := 0, pair_virial := fun _ => 0
    bond_energy := 0, bond_virial := fun _ => 0
    angle_energy := 0, angle_virial := fun _ => 0
    dihedral_energy := 0, dihedral_virial := fun _ => 0
    improper_energy := 0, improper_virial := fun _ => 0
    kspace_energy := 0, kspace_virial := fun _ => 0 }

/-- A pair style with every energy/virial flag switched on. -/
def pairAll : Pair :=
  { eflag_global := true, eflag_atom := true, eflag_either := true
    vflag_global := true, vflag_atom := true, vflag_either := true }

/-- A dihedral style with every energy/virial flag switched on. -/
def dihedAll : Dihedral :=
  { eflag_global := true, eflag_atom := true, eflag_either := true
    vflag_global := true, vflag_atom := true, vflag_either := true }

/-! ### C10: per-thread setup of the per-atom slices -/

/-- C10: `ev_setup_thr` sets the thread's per-atom energy slice to the
shared buffer offset by `tid * nall` exactly when bit 1 of `eflag` is
requested, sets the per-atom stress slice to the same offset exactly when
bit 2 of `vflag` is requested, and otherwise leaves each slice pointer
unchanged. -/
theorem ev_setup_thr_slices (eflag vflag nall eatom vatom : ℕ)
    (thr : SetupThr) :
    (ev_setup_thr eflag vflag nall eatom vatom thr).eatomPtr
        = (if eflag &&& 2 ≠ 0 then eatom + thr.tid * nall else thr.eatomPtr)
      ∧ (ev_setup_thr eflag vflag nall eatom vatom thr).vatomPtr
        = (if vflag &&& 4 ≠ 0 then vatom + thr.tid * nall else thr.vatomPtr)
      ∧ (ev_setup_thr eflag vflag nall eatom vatom thr).tid = thr.tid := by
  unfold ev_setup_thr
  by_cases he : eflag &&& 2 ≠ 0 <;> by_cases hv : vflag &&& 4 ≠ 0 <;>
    simp [he, hv]

/-! ### C9: the cross-thread force/torque reduction trigger -/

/-- C9: the tail of `reduce_thr` issues a `data_reduce_thr` call exactly
when the just-finished category is the last scheduled one; the force array
is reduced over all `nlocal + nghost` atoms with element width 3, and the
torque array with the same parameters exactly when a torque array is
present. -/
theorem reduce_thr_force_torque_reduction (style last : ThrStyle)
    (eflag vflag : ℕ) (fd : Bool) (fu : ThrData → ThrData) (ht : Bool)
    (nlocal nghost nthreads tid : ℕ) (thr : ThrData) (s : Shared)
    (c : ReduceCall) :
    c ∈ (reduce_thr style last eflag vflag fd fu ht
          nlocal nghost nthreads tid thr s).calls
      ↔ style = last ∧
          (c = ReduceCall.mk ArrayId.force (nlocal + nghost) nthreads 3 tid
            ∨ ht = true ∧
              c = ReduceCall.mk ArrayId.torque (nlocal + nghost) nthreads 3 tid) := by
  unfold reduce_thr
  by_cases hl : style = last <;> by_cases hht : ht = true <;>
    simp [hl, hht]

/-! ### C1: the per-category merge is an exact sum over threads -/

/-- A number with a nonzero bit stays nonzero after or-ing more bits in. -/
lemma or_ne_zero_left (a b : ℕ) (h : a ≠ 0) : a ||| b ≠ 0 := by
  intro h0
  apply h
  apply Nat.eq_of_testBit_eq
  intro i
  have hb := congrArg (fun n => n.testBit i) h0
  simp [Nat.testBit_or] at hb
  simp [hb.1]

/-- One merge step adds exactly the thread's scalar energy to the shared
scalar energy of the category (for the pair category, under its flag
gating). -/
lemma reduce_merge_sharedEng (style : ThrStyle) (eflag vflag : ℕ)
    (thr : ThrData) (s : Shared)
    (hp : style = ThrStyle.pair → eflag &&& 1 ≠ 0 ∧ vflag &&& 3 ≠ 0) :
    sharedEng style (reduce_merge style eflag vflag thr s)
      = sharedEng style s + thrEng style thr := by
  cases style with
  | pair =>
      obtain ⟨h1, h3⟩ := hp rfl
      have he : eflag ≠ 0 := by rintro rfl; simp at h1
      have hev : eflag ||| vflag ≠ 0 := or_ne_zero_left _ _ he
      have h1m : eflag % 2 = 1 := by
        rw [Nat.and_one_is_mod] at h1
        omega
      simp [reduce_merge, sharedEng, thrEng, hev, h1m, h3]
      ring
  | bond => simp [reduce_merge, sharedEng, thrEng]
  | angle => simp [reduce_merge, sharedEng, thrEng]
  | dihedral => simp [reduce_merge, sharedEng, thrEng]
  | improper => simp [reduce_merge, sharedEng, thrEng]
  | kspace => simp [reduce_merge, sharedEng, thrEng]

/-- One merge step adds exactly the thread's local stress to the shared
stress of the category (for the pair category, under its flag gating). -/
lemma reduce_merge_sharedVir (style : ThrStyle) (eflag vflag : ℕ)
    (thr : ThrData) (s : Shared)
    (hp : style = ThrStyle.pair → eflag &&& 1 ≠ 0 ∧ vflag &&& 3 ≠ 0)
    (c : Fin 6) :
    sharedVir style (reduce_merge style eflag vflag thr s) c
      = sharedVir style s c + thrVir style thr c := by
  cases style with
  | pair =>
      obtain ⟨h1, h3⟩ := hp rfl
      have he : eflag ≠ 0 := by rintro rfl; simp at h1
      have hev : eflag ||| vflag ≠ 0 := or_ne_zero_left _ _ he
      have h1m : eflag % 2 = 1 := by
        rw [Nat.and_one_is_mod] at h1
        omega
      simp [reduce_merge, sharedVir, thrVir, v_tally, hev, h1m, h3]
  | bond => simp [reduce_merge, sharedVir, thrVir, v_tally]
  | angle => simp [reduce_merge, sharedVir, thrVir, v_tally]
  | dihedral => simp [reduce_merge, sharedVir, thrVir, v_tally]
  | improper => simp [reduce_merge, sharedVir, thrVir, v_tally]
  | kspace => simp [reduce_merge, sharedVir, thrVir, v_tally]

/-- With the fdotr path inactive, one `reduce_thr` step changes the shared
totals exactly by one `reduce_merge`. -/
lemma reduceAll_cons (style last : ThrStyle) (eflag vflag : ℕ) (ht : Bool)
    (nlocal nghost nthreads tid : ℕ) (thr : ThrData) (thrs : List ThrData)
    (s : Shared) :
    reduceAll style last eflag vflag ht nlocal nghost nthreads tid
        (thr :: thrs) s
      = reduceAll style last eflag vflag ht nlocal nghost nthreads tid thrs
          (reduce_merge style eflag vflag thr s) := by
  simp [reduceAll, reduce_thr]

/-- C1 (amended): for the bond, angle, dihedral, improper and kspace
categories unconditionally, and for the pair category when scalar energy
output is requested (`eflag & 1`) and pairwise virial output is requested
(`vflag & 3`) with the fdotr path inactive, running every thread's merge
step leaves the category's shared scalar energy and 6-component stress
equal to their prior values plus the exact sum of all threads' local
values: nothing lost, nothing double-counted. -/
theorem reduce_thr_merge_exact (style last : ThrStyle) (eflag vflag : ℕ)
    (ht : Bool) (nlocal nghost nthreads tid : ℕ) (thrs : List ThrData)
    (s : Shared)
    (hp : style = ThrStyle.pair → eflag &&& 1 ≠ 0 ∧ vflag &&& 3 ≠ 0) :
    sharedEng style
        (reduceAll style last eflag vflag ht nlocal nghost nthreads tid thrs s)
      = sharedEng style s + (thrs.map (thrEng style)).sum
    ∧ ∀ c : Fin 6,
        sharedVir style
            (reduceAll style last eflag vflag ht nlocal nghost nthreads tid thrs s) c
          = sharedVir style s c + (thrs.map (fun t => thrVir style t c)).sum := by
  induction thrs generalizing s with
  | nil => simp [reduceAll]
  | cons t ts ih =>
      rw [reduceAll_cons]
      obtain ⟨ihE, ihV⟩ := ih (reduce_merge style eflag vflag t s)
      refine ⟨?_, fun c => ?_⟩
      · rw [ihE, reduce_merge_sharedEng style eflag vflag t s hp]
        simp
        ring
      · rw [ihV c, reduce_merge_sharedVir style eflag vflag t s hp c]
        simp
        ring

/-- Witness for C1: a concrete pair-category merge with `eflag = vflag = 1`
and a single thread holding one unit of energy. -/
theorem reduce_thr_merge_exact_witness :
    sharedEng ThrStyle.pair
        (reduceAll ThrStyle.pair ThrStyle.pair 1 1 false 0 0 1 0 [thrOne] shared0)
      = sharedEng ThrStyle.pair shared0 + ([thrOne].map (thrEng ThrStyle.pair)).sum :=
  (reduce_thr_merge_exact ThrStyle.pair ThrStyle.pair 1 1 false 0 0 1 0
    [thrOne] shared0 (fun _ => ⟨by decide, by decide⟩)).1

/-- Counterexample to C1 as stated: for the pair category with
`eflag = vflag = 0` the merge step is skipped entirely, so a thread's
nonzero local energy is not added to the shared total. -/
theorem reduce_merge_pair_cex :
    ¬ (sharedEng ThrStyle.pair
          (reduceAll ThrStyle.pair ThrStyle.pair 0 0 false 0 0 1 0 [thrOne] shared0)
        = sharedEng ThrStyle.pair shared0
            + ([thrOne].map (thrEng ThrStyle.pair)).sum) := by
  simp [reduceAll, reduce_thr, reduce_merge, sharedEng, thrEng, thrOne, thr0,
    shared0]

/-! ### C3, C4: pairwise tally in newton and half mode -/

/-- Number of the two pair atoms that pass the ownership test. -/
def ownCount (i j nlocal : ℕ) : ℚ :=
  (if i < nlocal then 1 else 0) + (if j < nlocal then 1 else 0)

/-- Global vdW energy change of `e_tally_thr`: full in newton mode, one
half-share per locally owned endpoint in half mode. -/
lemma e_tally_thr_eng_vdwl (pair : Pair) (i j nlocal : ℕ) (np : Bool)
    (evdwl ecoul : ℚ) (thr : ThrData) (he : pair.eflag_global = true) :
    (e_tally_thr pair i j nlocal np evdwl ecoul thr).eng_vdwl
      = thr.eng_vdwl
          + (if np then evdwl else ownCount i j nlocal * ((1/2) * evdwl)) := by
  unfold e_tally_thr ownCount
  cases np <;>
    by_cases hi : i < nlocal <;> by_cases hj : j < nlocal <;>
      by_cases ha : pair.eflag_atom <;>
        simp [he, hi, hj, ha] <;> ring

/-- Global Coulomb energy change of `e_tally_thr`. -/
lemma e_tally_thr_eng_coul (pair : Pair) (i j nlocal : ℕ) (np : Bool)
    (evdwl ecoul : ℚ) (thr : ThrData) (he : pair.eflag_global = true) :
    (e_tally_thr pair i j nlocal np evdwl ecoul thr).eng_coul
      = thr.eng_coul
          + (if np then ecoul else ownCount i j nlocal * ((1/2) * ecoul)) := by
  unfold e_tally_thr ownCount
  cases np <;>
    by_cases hi : i < nlocal <;> by_cases hj : j < nlocal <;>
      by_cases ha : pair.eflag_atom <;>
        simp [he, hi, hj, ha] <;> ring

/-- Global virial change of `v_tally_thr`: full tensor in newton mode, one
half-share per locally owned endpoint in half mode. -/
lemma v_tally_thr_virial (pair : Pair) (i j nlocal : ℕ) (np : Bool)
    (v : V6) (thr : ThrData) (hv : pair.vflag_global = true) (c : Fin 6) :
    (v_tally_thr pair i j nlocal np v thr).virial_pair c
      = thr.virial_pair c
          + (if np then v c else ownCount i j nlocal * ((1/2) * v c)) := by
  unfold v_tally_thr ownCount
  cases np <;>
    by_cases hi : i < nlocal <;> by_cases hj : j < nlocal <;>
      by_cases ha : pair.vflag_atom <;>
        simp [hv, hi, hj, ha, v_tally, v_tally_scaled] <;> ring

/-- C3: with global energy and virial accounting enabled, the pairwise
tally adds the full energies and full 6-component virial in newton mode
regardless of ghosts; in half mode it adds one half per endpoint with
index `< nlocal`, so a pair of ghosts contributes nothing in half mode but
the full value in newton mode. -/
theorem pair_global_tally_modes (pair : Pair) (i j nlocal : ℕ)
    (evdwl ecoul : ℚ) (v : V6) (thr : ThrData)
    (he : pair.eflag_global = true) (hv : pair.vflag_global = true) :
    ((e_tally_thr pair i j nlocal true evdwl ecoul thr).eng_vdwl
          = thr.eng_vdwl + evdwl
      ∧ (e_tally_thr pair i j nlocal true evdwl ecoul thr).eng_coul
          = thr.eng_coul + ecoul)
    ∧ ((e_tally_thr pair i j nlocal false evdwl ecoul thr).eng_vdwl
          = thr.eng_vdwl + ownCount i j nlocal * ((1/2) * evdwl)
      ∧ (e_tally_thr pair i j nlocal false evdwl ecoul thr).eng_coul
          = thr.eng_coul + ownCount i j nlocal * ((1/2) * ecoul))
    ∧ (∀ c : Fin 6,
        (v_tally_thr pair i j nlocal true v thr).virial_pair c
          = thr.virial_pair c + v c)
    ∧ (∀ c : Fin 6,
        (v_tally_thr pair i j nlocal false v thr).virial_pair c
          = thr.virial_pair c + ownCount i j nlocal * ((1/2) * v c))
    ∧ (nlocal ≤ i → nlocal ≤ j →
        (e_tally_thr pair i j nlocal false evdwl ecoul thr).eng_vdwl
            = thr.eng_vdwl
        ∧ (e_tally_thr pair i j nlocal false evdwl ecoul thr).eng_coul
            = thr.eng_coul
        ∧ ∀ c : Fin 6,
            (v_tally_thr pair i j nlocal false v thr).virial_pair c
              = thr.virial_pair c) := by
  have hcnt : ∀ (hi : nlocal ≤ i) (hj : nlocal ≤ j), ownCount i j nlocal = 0 := by
    intro hi hj
    simp [ownCount, Nat.not_lt.mpr hi, Nat.not_lt.mpr hj]
  refine ⟨⟨?_, ?_⟩, ⟨?_, ?_⟩, fun c => ?_, fun c => ?_, fun hi hj => ⟨?_, ?_, fun c => ?_⟩⟩
  · simp [e_tally_thr_eng_vdwl pair i j nlocal true evdwl ecoul thr he]
  · simp [e_tally_thr_eng_coul pair i j nlocal true evdwl ecoul thr he]
  · simp [e_tally_thr_eng_vdwl pair i j nlocal false evdwl ecoul thr he]
  · simp [e_tally_thr_eng_coul pair i j nlocal false evdwl ecoul thr he]
  · simp [v_tally_thr_virial pair i j nlocal true v thr hv c]
  · simp [v_tally_thr_virial pair i j nlocal false v thr hv c]
  · simp [e_tally_thr_eng_vdwl pair i j nlocal false evdwl ecoul thr he, hcnt hi hj]
  · simp [e_tally_thr_eng_coul pair i j nlocal false evdwl ecoul thr he, hcnt hi hj]
  · simp [v_tally_thr_virial pair i j nlocal false v thr hv c, hcnt hi hj]

/-- Witness for C3: newton-mode full-energy addition at a concrete input
with both atoms ghosts (`nlocal = 0`). -/
theorem pair_global_tally_modes_witness :
    (e_tally_thr pairAll 3 4 0 true 1 2 thr0).eng_vdwl = thr0.eng_vdwl + 1 :=
  (pair_global_tally_modes pairAll 3 4 0 1 2 (fun _ => 0) thr0 rfl rfl).1.1

/-- C4 (amended): with per-atom energy accounting enabled, the pairwise
interaction energy is split 50/50 between `i` and `j` regardless of newton
mode, and each half is written to an atom's per-atom energy slot exactly
when newton mode is active or that atom passes the ownership test
(`index < nlocal`); no other slot changes. -/
theorem e_tally_thr_peratom_split (pair : Pair) (i j nlocal : ℕ) (np : Bool)
    (evdwl ecoul : ℚ) (thr : ThrData) (a : ℕ)
    (ha : pair.eflag_atom = true) :
    (e_tally_thr pair i j nlocal np evdwl ecoul thr)._eatom a
      = thr._eatom a
        + (if (np = true ∨ i < nlocal) ∧ a = i
            then (1/2) * (evdwl + ecoul) else 0)
        + (if (np = true ∨ j < nlocal) ∧ a = j
            then (1/2) * (evdwl + ecoul) else 0) := by
  unfold e_tally_thr
  by_cases hij : i = j
  · subst hij
    by_cases hg : pair.eflag_global <;> cases np <;>
      by_cases hi : i < nlocal <;>
        by_cases hai : a = i <;>
          simp [ha, hg, hi, hai, Function.update_apply]
  · have hji : ¬ j = i := fun h => hij h.symm
    by_cases hg : pair.eflag_global <;> cases np <;>
      by_cases hi : i < nlocal <;> by_cases hj : j < nlocal <;>
        by_cases hai : a = i <;> by_cases haj : a = j <;>
          simp [ha, hg, hi, hj, hai, haj, hij, hji, Function.update_apply]

/-- Witness for C4: a concrete owned pair in newton mode; atom 0 receives
its half-share. -/
theorem e_tally_thr_peratom_split_witness :
    pairAll.eflag_atom = true
    ∧ (e_tally_thr pairAll 0 1 2 true 1 0 thr0)._eatom 0
        = thr0._eatom 0
          + (if (true = true ∨ (0:ℕ) < 2) ∧ (0:ℕ) = 0
              then (1/2 : ℚ) * (1 + 0) else 0)
          + (if (true = true ∨ (1:ℕ) < 2) ∧ (0:ℕ) = 1
              then (1/2 : ℚ) * (1 + 0) else 0) :=
  ⟨rfl, e_tally_thr_peratom_split pairAll 0 1 2 true 1 0 thr0 0 rfl⟩

/-- Counterexample to C4 as stated: in newton mode the per-atom half-share
is written even to an atom that fails the ownership test.  Here atom 2
with `nlocal = 2` is a ghost, yet its per-atom energy slot changes. -/
theorem e_tally_thr_peratom_newton_ghost_cex :
    (e_tally_thr pairAll 2 3 2 true 1 0 thr0)._eatom 2 ≠ thr0._eatom 2 := by
  simp [e_tally_thr, pairAll, thr0, Function.update_apply]

/-! ### C5: dihedral tally energy lands in the bond accumulator -/

/-- C5: with global energy accounting enabled, the dihedral tally adds the
dihedral energy share to the thread's `eng_bond` accumulator and leaves
`eng_dihed` unchanged, while the dihedral-category merge adds only
`eng_dihed` into the shared dihedral energy total — so energy tallied
through the dihedral tally is never merged into the shared dihedral total
by the dihedral reduction. -/
theorem dihedral_energy_goes_to_bond (dihed : Dihedral)
    (i1 i2 i3 i4 nlocal : ℕ) (nb : Bool) (edihedral : ℚ)
    (f1 f3 f4 vb1 vb2 vb3 : V3) (thr : ThrData) (eflag vflag : ℕ)
    (s : Shared)
    (he : dihed.eflag_either = true) (hg : dihed.eflag_global = true) :
    (ev_tally_thr_dihedral dihed i1 i2 i3 i4 nlocal nb edihedral
        f1 f3 f4 vb1 vb2 vb3 thr).eng_dihed = thr.eng_dihed
    ∧ (ev_tally_thr_dihedral dihed i1 i2 i3 i4 nlocal nb edihedral
        f1 f3 f4 vb1 vb2 vb3 thr).eng_bond
        = thr.eng_bond
            + (if nb then edihedral
               else dihedOwnCount i1 i2 i3 i4 nlocal * ((1/4) * edihedral))
    ∧ (reduce_merge ThrStyle.dihedral eflag vflag thr s).dihedral_energy
        = s.dihedral_energy + thr.eng_dihed := by
  refine ⟨?_, ?_, ?_⟩
  · unfold ev_tally_thr_dihedral
    cases nb <;>
      simp [he, hg, apply_ite ThrData.eng_dihed]
  · unfold ev_tally_thr_dihedral
    cases nb <;>
      simp [he, hg, apply_ite ThrData.eng_bond]
  · simp [reduce_merge]

/-- Witness for C5: concrete newton-mode dihedral tally of one unit of
energy. -/
theorem dihedral_energy_goes_to_bond_witness :
    (ev_tally_thr_dihedral dihedAll 0 1 2 3 4 true 1
        z3 z3 z3 z3 z3 z3 thr0).eng_dihed = thr0.eng_dihed :=
  (dihedral_energy_goes_to_bond dihedAll 0 1 2 3 4 true 1
    z3 z3 z3 z3 z3 z3 thr0 0 0 shared0 rfl rfl).1

/-! ### C2: non-newton dihedral per-atom virial scatter -/

/-- A dihedral style requesting only per-atom virials. -/
def dihedVirOnly : Dihedral :=
  { eflag_global := false, eflag_atom := false, eflag_either := false
    vflag_global := false, vflag_atom := true, vflag_either := true }

/-- C2 code-bug evaluation: non-newton dihedral per-atom virial scatter
with `i1 = 0, i2 = 1, i3 = 5, i4 = 6, nlocal = 2` and a decomposition whose
xx component is 1.  The source gates all four quarter-share additions on
`i1 < nlocal` and writes all four to atom `i1`, so atom 0 accumulates the
full component (four quarter-shares) and the equally owned atom 1 receives
nothing. -/
theorem dihedral_vatom_scatter_bug :
    ((ev_tally_thr_dihedral dihedVirOnly 0 1 5 6 2 false 0
        e1v z3 z3 e1v z3 z3 thr0)._vatom 0 0 = 1)
    ∧ ((ev_tally_thr_dihedral dihedVirOnly 0 1 5 6 2 false 0
        e1v z3 z3 e1v z3 z3 thr0)._vatom 1 0 = 0) := by
  constructor <;>
    norm_num [ev_tally_thr_dihedral, dihedVirOnly, thr0, e1v, z3, vdihed,
      v_tally, Function.update_apply]

/-! ### Pointwise characterizations of the scatter-add updates -/

/-- A `x[i] += q` update, read back at an arbitrary index. -/
lemma update_add_apply (f : ℕ → ℚ) (i a : ℕ) (q : ℚ) :
    Function.update f i (f i + q) a = f a + if a = i then q else 0 := by
  by_cases h : a = i <;> simp [Function.update_apply, h]

/-- A `v_tally(x[i], v)` update, read back at an arbitrary index and
component. -/
lemma update_vt_apply (f : ℕ → V6) (i a : ℕ) (v : V6) (c : Fin 6) :
    Function.update f i (v_tally (f i) v) a c
      = f a c + if a = i then v c else 0 := by
  by_cases h : a = i <;> simp [Function.update_apply, h, v_tally]

/-- A `v_tally(x[i], s, v)` update, read back at an arbitrary index and
component. -/
lemma update_vts_apply (f : ℕ → V6) (i a : ℕ) (s : ℚ) (v : V6) (c : Fin 6) :
    Function.update f i (v_tally_scaled (f i) s v) a c
      = f a c + if a = i then s * v c else 0 := by
  by_cases h : a = i <;> simp [Function.update_apply, h, v_tally_scaled]

/-- Per-atom energy effect of the three-body tally, at any atom index. -/
lemma ev_tally3_thr_eatom (pair : Pair) (i j k : ℕ) (evdwl ecoul : ℚ)
    (fj fk drji drki : V3) (thr : ThrData) (a : ℕ)
    (he : pair.eflag_either = true) (ha : pair.eflag_atom = true) :
    (ev_tally3_thr pair i j k evdwl ecoul fj fk drji drki thr)._eatom a
      = thr._eatom a
        + (if a = i then THIRD * (evdwl + ecoul) else 0)
        + (if a = j then THIRD * (evdwl + ecoul) else 0)
        + (if a = k then THIRD * (evdwl + ecoul) else 0) := by
  unfold ev_tally3_thr
  by_cases hg : pair.eflag_global <;>
    by_cases hv : pair.vflag_either <;> by_cases hvg : pair.vflag_global <;>
      by_cases hva : pair.vflag_atom <;>
        simp [he, ha, hg, hv, hvg, hva] <;>
        rw [update_add_apply, update_add_apply, update_add_apply]

/-- Per-atom energy effect of the four-body tally, at any atom index. -/
lemma ev_tally4_thr_eatom (pair : Pair) (i j k m : ℕ) (evdwl : ℚ)
    (fi fj fk drim drjm drkm : V3) (thr : ThrData) (a : ℕ)
    (he : pair.eflag_either = true) (ha : pair.eflag_atom = true) :
    (ev_tally4_thr pair i j k m evdwl fi fj fk drim drjm drkm thr)._eatom a
      = thr._eatom a
        + (if a = i then (1/4) * evdwl else 0)
        + (if a = j then (1/4) * evdwl else 0)
        + (if a = k then (1/4) * evdwl else 0)
        + (if a = m then (1/4) * evdwl else 0) := by
  unfold ev_tally4_thr
  by_cases hg : pair.eflag_global <;>
    by_cases hva : pair.vflag_atom <;>
      simp [he, ha, hg, hva] <;>
      rw [update_add_apply, update_add_apply, update_add_apply,
        update_add_apply]

/-! ### C8: equal unconditional per-atom energy shares for N = 3, 4 -/

/-- C8: with per-atom energy accounting enabled and distinct participating
atoms, the three-body tally adds an equal third share of `evdwl + ecoul`
to each of the three atoms with no ownership test, the four-body tally an
equal quarter share of `evdwl` to each of the four atoms, and in each case
the per-atom increments sum exactly to the total interaction energy. -/
theorem ev_tally34_peratom_energy_shares (pair : Pair) (i j k m : ℕ)
    (evdwl ecoul : ℚ) (fi fj fk drji drki drim drjm drkm : V3)
    (thr : ThrData)
    (he : pair.eflag_either = true) (ha : pair.eflag_atom = true)
    (hij : i ≠ j) (hik : i ≠ k) (him : i ≠ m) (hjk : j ≠ k) (hjm : j ≠ m)
    (hkm : k ≠ m) :
    ((ev_tally3_thr pair i j k evdwl ecoul fj fk drji drki thr)._eatom i
        = thr._eatom i + THIRD * (evdwl + ecoul)
    ∧ (ev_tally3_thr pair i j k evdwl ecoul fj fk drji drki thr)._eatom j
        = thr._eatom j + THIRD * (evdwl + ecoul)
    ∧ (ev_tally3_thr pair i j k evdwl ecoul fj fk drji drki thr)._eatom k
        = thr._eatom k + THIRD * (evdwl + ecoul)
    ∧ ((ev_tally3_thr pair i j k evdwl ecoul fj fk drji drki thr)._eatom i
          - thr._eatom i)
        + ((ev_tally3_thr pair i j k evdwl ecoul fj fk drji drki thr)._eatom j
          - thr._eatom j)
        + ((ev_tally3_thr pair i j k evdwl ecoul fj fk drji drki thr)._eatom k
          - thr._eatom k)
        = evdwl + ecoul)
    ∧ ((ev_tally4_thr pair i j k m evdwl fi fj fk drim drjm drkm thr)._eatom i
        = thr._eatom i + (1/4) * evdwl
    ∧ (ev_tally4_thr pair i j k m evdwl fi fj fk drim drjm drkm thr)._eatom j
        = thr._eatom j + (1/4) * evdwl
    ∧ (ev_tally4_thr pair i j k m evdwl fi fj fk drim drjm drkm thr)._eatom k
        = thr._eatom k + (1/4) * evdwl
    ∧ (ev_tally4_thr pair i j k m evdwl fi fj fk drim drjm drkm thr)._eatom m
        = thr._eatom m + (1/4) * evdwl
    ∧ ((ev_tally4_thr pair i j k m evdwl fi fj fk drim drjm drkm thr)._eatom i
          - thr._eatom i)
        + ((ev_tally4_thr pair i j k m evdwl fi fj fk drim drjm drkm thr)._eatom j
          - thr._eatom j)
        + ((ev_tally4_thr pair i j k m evdwl fi fj fk drim drjm drkm thr)._eatom k
          - thr._eatom k)
        + ((ev_tally4_thr pair i j k m evdwl fi fj fk drim drjm drkm thr)._eatom m
          - thr._eatom m)
        = evdwl) := by
  have h3i := ev_tally3_thr_eatom pair i j k evdwl ecoul fj fk drji drki thr i he ha
  have h3j := ev_tally3_thr_eatom pair i j k evdwl ecoul fj fk drji drki thr j he ha
  have h3k := ev_tally3_thr_eatom pair i j k evdwl ecoul fj fk drji drki thr k he ha
  have h4i := ev_tally4_thr_eatom pair i j k m evdwl fi fj fk drim drjm drkm thr i he ha
  have h4j := ev_tally4_thr_eatom pair i j k m evdwl fi fj fk drim drjm drkm thr j he ha
  have h4k := ev_tally4_thr_eatom pair i j k m evdwl fi fj fk drim drjm drkm thr k he ha
  have h4m := ev_tally4_thr_eatom pair i j k m evdwl fi fj fk drim drjm drkm thr m he ha
  refine ⟨⟨?_, ?_, ?_, ?_⟩, ?_, ?_, ?_, ?_, ?_⟩ <;>
    simp [h3i, h3j, h3k, h4i, h4j, h4k, h4m, hij, hik, him, hjk, hjm, hkm,
      hij.symm, hik.symm, him.symm, hjk.symm, hjm.symm, hkm.symm, THIRD] <;>
    ring

/-- Witness for C8: triplet tally of 3 energy units over distinct atoms
0, 1, 2; atom 0 receives a third share. -/
theorem ev_tally34_peratom_energy_shares_witness :
    (ev_tally3_thr pairAll 0 1 2 3 0 z3 z3 z3 z3 thr0)._eatom 0
      = thr0._eatom 0 + THIRD * (3 + 0) :=
  (ev_tally34_peratom_energy_shares pairAll 0 1 2 3 3 0 z3 z3 z3 z3 z3 z3
    z3 z3 thr0 rfl rfl (by decide) (by decide) (by decide) (by decide)
    (by decide) (by decide)).1.1

/-! ### C6: virial scatter of the triplet and quadruplet tallies -/

/-- Global virial effect of the three-body tally: the full, unscaled
decomposition is added. -/
lemma ev_tally3_thr_virial (pair : Pair) (i j k : ℕ) (evdwl ecoul : ℚ)
    (fj fk drji drki : V3) (thr : ThrData)
    (hve : pair.vflag_either = true) (hvg : pair.vflag_global = true)
    (c : Fin 6) :
    (ev_tally3_thr pair i j k evdwl ecoul fj fk drji drki thr).virial_pair c
      = thr.virial_pair c + v3comp fj fk drji drki c := by
  unfold ev_tally3_thr
  by_cases hee : pair.eflag_either <;> by_cases hg : pair.eflag_global <;>
    by_cases hea : pair.eflag_atom <;> by_cases hva : pair.vflag_atom <;>
      simp [hve, hvg, hee, hg, hea, hva, v_tally]

/-- The four-body tally never changes the thread's global virial. -/
lemma ev_tally4_thr_virial (pair : Pair) (i j k m : ℕ) (evdwl : ℚ)
    (fi fj fk drim drjm drkm : V3) (thr : ThrData) (c : Fin 6) :
    (ev_tally4_thr pair i j k m evdwl fi fj fk drim drjm drkm thr).virial_pair c
      = thr.virial_pair c := by
  unfold ev_tally4_thr
  by_cases hee : pair.eflag_either <;> by_cases hg : pair.eflag_global <;>
    by_cases hea : pair.eflag_atom <;> by_cases hva : pair.vflag_atom <;>
      simp [hee, hg, hea, hva]

/-- Per-atom virial effect of the three-body tally, at any atom index and
component: one third-share per occurrence among `i, j, k`. -/
lemma ev_tally3_thr_vatom (pair : Pair) (i j k : ℕ) (evdwl ecoul : ℚ)
    (fj fk drji drki : V3) (thr : ThrData) (a : ℕ) (c : Fin 6)
    (hve : pair.vflag_either = true) (hva : pair.vflag_atom = true) :
    (ev_tally3_thr pair i j k evdwl ecoul fj fk drji drki thr)._vatom a c
      = thr._vatom a c
        + (if a = i then THIRD * v3comp fj fk drji drki c else 0)
        + (if a = j then THIRD * v3comp fj fk drji drki c else 0)
        + (if a = k then THIRD * v3comp fj fk drji drki c else 0) := by
  unfold ev_tally3_thr
  by_cases hee : pair.eflag_either <;> by_cases hg : pair.eflag_global <;>
    by_cases hea : pair.eflag_atom <;> by_cases hvg : pair.vflag_global <;>
      simp [hve, hva, hee, hg, hea, hvg] <;>
      rw [update_vts_apply, update_vts_apply, update_vts_apply]

/-- Per-atom virial effect of the four-body tally, at any atom index and
component: one quarter-scaled decomposition per occurrence among
`i, j, k, m`. -/
lemma ev_tally4_thr_vatom (pair : Pair) (i j k m : ℕ) (evdwl : ℚ)
    (fi fj fk drim drjm drkm : V3) (thr : ThrData) (a : ℕ) (c : Fin 6)
    (hva : pair.vflag_atom = true) :
    (ev_tally4_thr pair i j k m evdwl fi fj fk drim drjm drkm thr)._vatom a c
      = thr._vatom a c
        + (if a = i then v4comp fi fj fk drim drjm drkm c else 0)
        + (if a = j then v4comp fi fj fk drim drjm drkm c else 0)
        + (if a = k then v4comp fi fj fk drim drjm drkm c else 0)
        + (if a = m then v4comp fi fj fk drim drjm drkm c else 0) := by
  unfold ev_tally4_thr
  by_cases hee : pair.eflag_either <;> by_cases hg : pair.eflag_global <;>
    by_cases hea : pair.eflag_atom <;>
      simp [hva, hee, hg, hea] <;>
      rw [update_vt_apply, update_vt_apply, update_vt_apply, update_vt_apply]

/-- C6 (amended): with virial accounting enabled and distinct atoms, the
triplet tally scatter-adds the 1/3-scaled decomposition into each of the
three atoms' per-atom stress slots and the full unscaled decomposition
into the thread's global virial; the quadruplet tally scatter-adds the
1/4-scaled decomposition into each of the four atoms' per-atom stress
slots only, leaving the thread's global virial unchanged. -/
theorem ev_tally34_virial_scatter (pair : Pair) (i j k m : ℕ)
    (evdwl ecoul : ℚ) (fi fj fk drji drki drim drjm drkm : V3)
    (thr : ThrData)
    (hve : pair.vflag_either = true) (hvg : pair.vflag_global = true)
    (hva : pair.vflag_atom = true)
    (hij : i ≠ j) (hik : i ≠ k) (him : i ≠ m) (hjk : j ≠ k) (hjm : j ≠ m)
    (hkm : k ≠ m) :
    (∀ c : Fin 6,
        (ev_tally3_thr pair i j k evdwl ecoul fj fk drji drki thr).virial_pair c
          = thr.virial_pair c + v3comp fj fk drji drki c)
    ∧ (∀ c : Fin 6,
        (ev_tally3_thr pair i j k evdwl ecoul fj fk drji drki thr)._vatom i c
          = thr._vatom i c + THIRD * v3comp fj fk drji drki c)
    ∧ (∀ c : Fin 6,
        (ev_tally3_thr pair i j k evdwl ecoul fj fk drji drki thr)._vatom j c
          = thr._vatom j c + THIRD * v3comp fj fk drji drki c)
    ∧ (∀ c : Fin 6,
        (ev_tally3_thr pair i j k evdwl ecoul fj fk drji drki thr)._vatom k c
          = thr._vatom k c + THIRD * v3comp fj fk drji drki c)
    ∧ (∀ c : Fin 6,
        (ev_tally4_thr pair i j k m evdwl fi fj fk drim drjm drkm thr).virial_pair c
          = thr.virial_pair c)
    ∧ (∀ c : Fin 6,
        (ev_tally4_thr pair i j k m evdwl fi fj fk drim drjm drkm thr)._vatom i c
          = thr._vatom i c + v4comp fi fj fk drim drjm drkm c)
    ∧ (∀ c : Fin 6,
        (ev_tally4_thr pair i j k m evdwl fi fj fk drim drjm drkm thr)._vatom j c
          = thr._vatom j c + v4comp fi fj fk drim drjm drkm c)
    ∧ (∀ c : Fin 6,
        (ev_tally4_thr pair i j k m evdwl fi fj fk drim drjm drkm thr)._vatom k c
          = thr._vatom k c + v4comp fi fj fk drim drjm drkm c)
    ∧ (∀ c : Fin 6,
        (ev_tally4_thr pair i j k m evdwl fi fj fk drim drjm drkm thr)._vatom m c
          = thr._vatom m c + v4comp fi fj fk drim drjm drkm c) := by
  refine ⟨fun c => ?_, fun c => ?_, fun c => ?_, fun c => ?_, fun c => ?_,
    fun c => ?_, fun c => ?_, fun c => ?_, fun c => ?_⟩
  · exact ev_tally3_thr_virial pair i j k evdwl ecoul fj fk drji drki thr hve hvg c
  · simp [ev_tally3_thr_vatom pair i j k evdwl ecoul fj fk drji drki thr i c hve hva,
      hij, hik]
  · simp [ev_tally3_thr_vatom pair i j k evdwl ecoul fj fk drji drki thr j c hve hva,
      hij.symm, hjk]
  · simp [ev_tally3_thr_vatom pair i j k evdwl ecoul fj fk drji drki thr k c hve hva,
      hik.symm, hjk.symm]
  · exact ev_tally4_thr_virial pair i j k m evdwl fi fj fk drim drjm drkm thr c
  · simp [ev_tally4_thr_vatom pair i j k m evdwl fi fj fk drim drjm drkm thr i c hva,
      hij, hik, him]
  · simp [ev_tally4_thr_vatom pair i j k m evdwl fi fj fk drim drjm drkm thr j c hva,
      hij.symm, hjk, hjm]
  · simp [ev_tally4_thr_vatom pair i j k m evdwl fi fj fk drim drjm drkm thr k c hva,
      hik.symm, hjk.symm, hkm]
  · simp [ev_tally4_thr_vatom pair i j k m evdwl fi fj fk drim drjm drkm thr m c hva,
      him.symm, hjm.symm, hkm.symm]

/-- Witness for C6: concrete triplet tally; the global virial receives the
full decomposition component. -/
theorem ev_tally34_virial_scatter_witness :
    (ev_tally3_thr pairAll 0 1 2 0 0 z3 z3 z3 z3 thr0).virial_pair 0
      = thr0.virial_pair 0 + v3comp z3 z3 z3 z3 0 :=
  (ev_tally34_virial_scatter pairAll 0 1 2 3 0 0 z3 z3 z3 z3 z3 z3 z3 z3
    thr0 rfl rfl rfl (by decide) (by decide) (by decide) (by decide)
    (by decide) (by decide)).1 0

/-- Counterexample to C6 as stated: a quadruplet tally with virial
accounting enabled and a nonzero decomposition leaves the thread's global
virial total untouched, instead of receiving the scaled decomposition. -/
theorem ev_tally4_no_global_virial_cex :
    ¬ ((ev_tally4_thr pairAll 0 1 2 3 0 e1v z3 z3 e1v z3 z3 thr0).virial_pair 0
        = thr0.virial_pair 0 + v4comp e1v z3 z3 e1v z3 z3 0) := by
  norm_num [ev_tally4_thr, pairAll, thr0, e1v, z3, v4comp,
    Function.update_apply, v_tally]

/-! ### C7: the list tally distributes the virial exactly -/

/-- Scatter-adding a fixed tensor to each atom of a duplicate-free list,
read back pointwise. -/
lemma foldl_vatom_nodup (vtmp : V6) (l : List ℕ) (f : ℕ → V6) (a : ℕ)
    (c : Fin 6) (hnd : l.Nodup) :
    (l.foldl (fun va x => Function.update va x (v_tally (va x) vtmp)) f) a c
      = f a c + if a ∈ l then vtmp c else 0 := by
  induction l generalizing f with
  | nil => simp
  | cons x xs ih =>
      obtain ⟨hx, hxs⟩ := List.nodup_cons.mp hnd
      rw [List.foldl_cons, ih _ hxs]
      by_cases hax : a = x
      · subst hax
        simp [hx, Function.update_same, v_tally]
      · simp [Function.update_apply, hax]

/-- Summing a function that is constant on a list. -/
lemma sum_map_const_on (l : List ℕ) (f : ℕ → ℚ) (q : ℚ)
    (h : ∀ a ∈ l, f a = q) :
    (l.map f).sum = (l.length : ℚ) * q := by
  induction l with
  | nil => simp
  | cons x xs ih =>
      rw [List.map_cons, List.sum_cons, h x (List.mem_cons_self x xs),
        ih (fun a ha => h a (List.mem_cons_of_mem x ha))]
      simp [List.length_cons]
      ring

/-- Global virial effect of the list tally: the unscaled supplied tensor is
added. -/
lemma ev_tally_list_thr_virial (pair : Pair) (l : List ℕ) (ecoul : ℚ)
    (v : V6) (thr : ThrData)
    (hve : pair.vflag_either = true) (hvg : pair.vflag_global = true)
    (c : Fin 6) :
    (ev_tally_list_thr pair l ecoul v thr).virial_pair c
      = thr.virial_pair c + v c := by
  unfold ev_tally_list_thr
  by_cases hee : pair.eflag_either <;> by_cases hg : pair.eflag_global <;>
    by_cases hea : pair.eflag_atom <;> by_cases hva : pair.vflag_atom <;>
      simp [hve, hvg, hee, hg, hea, hva, v_tally]

/-- Per-atom virial effect of the list tally over a duplicate-free list. -/
lemma ev_tally_list_thr_vatom (pair : Pair) (l : List ℕ) (ecoul : ℚ)
    (v : V6) (thr : ThrData) (a : ℕ) (c : Fin 6)
    (hve : pair.vflag_either = true) (hva : pair.vflag_atom = true)
    (hnd : l.Nodup) :
    (ev_tally_list_thr pair l ecoul v thr)._vatom a c
      = thr._vatom a c
        + if a ∈ l then (1 / (l.length : ℚ)) * v c else 0 := by
  unfold ev_tally_list_thr
  by_cases hee : pair.eflag_either <;> by_cases hg : pair.eflag_global <;>
    by_cases hea : pair.eflag_atom <;> by_cases hvg : pair.vflag_global <;>
      simp [hve, hva, hee, hg, hea, hvg] <;>
      rw [foldl_vatom_nodup _ _ _ _ _ hnd]

/-- C7: with virial accounting enabled, a list tally over a duplicate-free
nonempty list of `n` atoms increases each listed atom's per-atom stress by
exactly `v / n`, leaves every unlisted atom untouched, the sum of the `n`
per-atom increments reproduces `v`, and the thread's global virial total
receives the unscaled `v`. -/
theorem ev_tally_list_virial_exact (pair : Pair) (l : List ℕ) (ecoul : ℚ)
    (v : V6) (thr : ThrData)
    (hve : pair.vflag_either = true) (hvg : pair.vflag_global = true)
    (hva : pair.vflag_atom = true) (hnd : l.Nodup) (hne : l ≠ []) :
    (∀ c : Fin 6,
        (ev_tally_list_thr pair l ecoul v thr).virial_pair c
          = thr.virial_pair c + v c)
    ∧ (∀ a ∈ l, ∀ c : Fin 6,
        (ev_tally_list_thr pair l ecoul v thr)._vatom a c
          = thr._vatom a c + (1 / (l.length : ℚ)) * v c)
    ∧ (∀ a : ℕ, a ∉ l → ∀ c : Fin 6,
        (ev_tally_list_thr pair l ecoul v thr)._vatom a c
          = thr._vatom a c)
    ∧ (∀ c : Fin 6,
        (l.map (fun a =>
            (ev_tally_list_thr pair l ecoul v thr)._vatom a c
              - thr._vatom a c)).sum = v c) := by
  have hn : (l.length : ℚ) ≠ 0 := by
    simpa [List.length_eq_zero] using hne
  refine ⟨?_, ?_, ?_, ?_⟩
  · exact fun c => ev_tally_list_thr_virial pair l ecoul v thr hve hvg c
  · intro a ha c
    simp [ev_tally_list_thr_vatom pair l ecoul v thr a c hve hva hnd, ha]
  · intro a ha c
    simp [ev_tally_list_thr_vatom pair l ecoul v thr a c hve hva hnd, ha]
  · intro c
    rw [sum_map_const_on l _ ((1 / (l.length : ℚ)) * v c)
      (fun a ha => by
        simp [ev_tally_list_thr_vatom pair l ecoul v thr a c hve hva hnd, ha])]
    field_simp

/-- Witness for C7: list `[0, 1]` with a constant unit tensor; atom 0
receives exactly half of each component. -/
theorem ev_tally_list_virial_exact_witness :
    (ev_tally_list_thr pairAll [0, 1] 0 (fun _ => 1) thr0).virial_pair 0
      = thr0.virial_pair 0 + (fun _ => (1 : ℚ)) 0 :=
  (ev_tally_list_virial_exact pairAll [0, 1] 0 (fun _ => 1) thr0 rfl rfl rfl
    (by decide) (by decide)).1 0

end ThrOMP
